import Mathlib

/-!
Shallow embedding of the NES emulator CPU core (src/cpu.rs): the packed
status register with its named flag bits, and the fetch-decode-execute
interpreter for the implemented opcode subset (BRK, LDA immediate, TAX,
INX).  Machine bytes (u8) are modelled as Nat with explicit reduction
modulo 256 where the source relies on 8-bit wraparound; the panics of the
source (out-of-bounds indexing, the todo! branch for unknown opcodes) are
modelled as structured error results of the step function.
-/

namespace Nes

/-- Processor status flags, one bit each, as in the source enum Flag.  -/
inductive Flag
  | N
  | V
  | B
  | D
  | I
  | Z
  | C
deriving DecidableEq, Repr

/-- Bit position of each flag: the numeric discriminant of the source enum
(N = 7, V = 6, B = 4, D = 3, I = 2, Z = 1, C = 0).  -/
def Flag.val : Flag → Nat
  | .N => 7
  | .V => 6
  | .B => 4
  | .D => 3
  | .I => 2
  | .Z => 1
  | .C => 0

/-- Packed status register: one byte holding the processor flags.  -/
structure Status where
  register : Nat
deriving DecidableEq, Repr

/-- Source read_bit: register & (1 << pos).  Returns the masked bit, not a
0/1 value.  -/
def Status.read_bit (s : Status) (pos : Nat) : Nat :=
  s.register &&& (1 <<< pos)

/-- Source set_bit: register |= 1 << (bit as u8).  -/
def Status.set_bit (s : Status) (bit : Flag) : Status :=
  { register := s.register ||| (1 <<< bit.val) }

/-- Source unset_bit: register &= !(1 << (bit as u8)); u8 complement is
modelled as xor with 0xFF.  -/
def Status.unset_bit (s : Status) (bit : Flag) : Status :=
  { register := s.register &&& (255 ^^^ (1 <<< bit.val)) }

/-- Source toggle_bit: register ^= 1 << (bit as u8).  -/
def Status.toggle_bit (s : Status) (bit : Flag) : Status :=
  { register := s.register ^^^ (1 <<< bit.val) }

/-- Source n(): read_bit 7.  -/
def Status.n (s : Status) : Nat := s.read_bit 7

/-- Source v(): read_bit 6.  -/
def Status.v (s : Status) : Nat := s.read_bit 6

/-- Source b(): read_bit 4.  -/
def Status.b (s : Status) : Nat := s.read_bit 4

/-- Source d(): read_bit 3.  -/
def Status.d (s : Status) : Nat := s.read_bit 3

/-- Source i(): read_bit 2.  -/
def Status.i (s : Status) : Nat := s.read_bit 2

/-- Source z(): read_bit 1.  -/
def Status.z (s : Status) : Nat := s.read_bit 1

/-- Source c(): read_bit 0.  -/
def Status.c (s : Status) : Nat := s.read_bit 0

/-- CPU state: accumulator, index register X, status register, program
counter (u8 in the source).  -/
structure CPU where
  reg_a : Nat
  reg_x : Nat
  status : Status
  pc : Nat
deriving DecidableEq, Repr

/-- Source CPU::new(): all registers and flags zero.  -/
def CPU.new : CPU :=
  { reg_a := 0, reg_x := 0, status := { register := 0 }, pc := 0 }

/-- Source update_nf_flags: set Z iff the result byte is zero, else clear
it; set N iff bit 7 of the result byte is set, else clear it.  -/
def update_nf_flags (s : Status) (result : Nat) : Status :=
  let s1 := if result = 0 then s.set_bit .Z else s.unset_bit .Z
  if result &&& 128 ≠ 0 then s1.set_bit .N else s1.unset_bit .N

/-- Failure modes of one interpreter step.  The source panics in both
cases (Vec index out of bounds, and the todo! arm for a byte with no
opcode handler); the embedding surfaces them as structured errors.  -/
inductive InterpError
  | outOfBounds (idx : Nat)
  | unimplementedOpcode (op : Nat)
deriving DecidableEq, Repr

/-- Outcome of one step of the instruction cycle, carrying the CPU state
at the moment the loop body finished (or failed).  -/
inductive StepResult
  | halted (c : CPU)
  | next (c : CPU)
  | failed (e : InterpError) (c : CPU)
deriving DecidableEq, Repr

/-- CPU state carried by a step outcome.  -/
def StepResult.cpu : StepResult → CPU
  | .halted c => c
  | .next c => c
  | .failed _ c => c

/-- One iteration of the source interpret loop: fetch the byte at pc,
advance pc by one (u8 wraparound modelled as mod 256), then dispatch on
the opcode exactly as the source match does.  -/
def step (prog : List Nat) (c : CPU) : StepResult :=
  match prog[c.pc]? with
  | none => .failed (.outOfBounds c.pc) c
  | some opcode =>
    let c1 : CPU := { c with pc := (c.pc + 1) % 256 }
    if opcode = 0x00 then
      .halted c1
    else if opcode = 0xA9 then
      match prog[c1.pc]? with
      | none => .failed (.outOfBounds c1.pc) c1
      | some param =>
        let c2 : CPU := { c1 with pc := (c1.pc + 1) % 256, reg_a := param }
        .next { c2 with status := update_nf_flags c2.status c2.reg_a }
    else if opcode = 0xAA then
      let c2 : CPU := { c1 with reg_x := c1.reg_a }
      .next { c2 with status := update_nf_flags c2.status c2.reg_x }
    else if opcode = 0xE8 then
      let c2 : CPU := { c1 with reg_x := (c1.reg_x + 1) % 256 }
      .next { c2 with status := update_nf_flags c2.status c2.reg_x }
    else
      .failed (.unimplementedOpcode opcode) c1

/-- Outcome of a bounded interpret run.  -/
inductive RunResult
  | halted (c : CPU)
  | failed (e : InterpError) (c : CPU)
  | outOfFuel (c : CPU)
deriving DecidableEq, Repr

/-- CPU state carried by a run outcome.  -/
def RunResult.cpu : RunResult → CPU
  | .halted c => c
  | .failed _ c => c
  | .outOfFuel c => c

/-- Fuel-bounded iteration of the interpret loop; outOfFuel exposes every
intermediate state of a run as the result of a shorter run.  -/
def runAux : Nat → List Nat → CPU → RunResult
  | 0, _, c => .outOfFuel c
  | fuel + 1, prog, c =>
    match step prog c with
    | .halted c1 => .halted c1
    | .failed e c1 => .failed e c1
    | .next c1 => runAux fuel prog c1

/-- Source interpret, fuel-bounded: run the instruction cycle until BRK
halts it, a failure aborts it, or the fuel runs out.  -/
def interpret (prog : List Nat) (c : CPU) (fuel : Nat) : RunResult :=
  runAux fuel prog c

/-- Every flag occupies one of the eight bit positions of the byte.  -/
theorem Flag.val_lt (f : Flag) : f.val < 8 := by
  cases f <;> simp [Flag.val]

/-- Bit read-out of set_bit: the flag's own bit becomes one, every other
position is read out unchanged.  -/
theorem testBit_set_bit (s : Status) (f : Flag) (q : Nat) :
    (s.set_bit f).register.testBit q
      = (s.register.testBit q || decide (f.val = q)) := by
  simp [Status.set_bit, Nat.one_shiftLeft, Nat.testBit_two_pow]

/-- Byte mask read-out: 255 has exactly its low eight bits set.  -/
theorem testBit_255 (i : Nat) : (255 : Nat).testBit i = decide (i < 8) := by
  rw [show (255 : Nat) = 2 ^ 8 - 1 from rfl, Nat.testBit_two_pow_sub_one]

/-- Bit read-out of unset_bit on the byte positions: the flag's own bit
becomes zero, every other position below eight is read out unchanged.  -/
theorem testBit_unset_bit (s : Status) (f : Flag) (q : Nat) (hq : q < 8) :
    (s.unset_bit f).register.testBit q
      = (s.register.testBit q && !decide (f.val = q)) := by
  simp [Status.unset_bit, Nat.one_shiftLeft, testBit_255, Nat.testBit_two_pow,
    hq]

/-- Bit read-out of toggle_bit: the flag's own bit flips, every other
position is read out unchanged.  -/
theorem testBit_toggle_bit (s : Status) (f : Flag) (q : Nat) :
    (s.toggle_bit f).register.testBit q
      = (s.register.testBit q).xor (decide (f.val = q)) := by
  simp [Status.toggle_bit, Nat.one_shiftLeft, Nat.testBit_two_pow]

/-- The zero/negative flag policy leaves every byte bit other than Z (bit
one) and N (bit seven) unchanged.  -/
theorem testBit_update_nf_flags_other (s : Status) (v q : Nat)
    (hq : q < 8) (h1 : q ≠ 1) (h7 : q ≠ 7) :
    (update_nf_flags s v).register.testBit q = s.register.testBit q := by
  by_cases h0 : v = 0 <;> by_cases h128 : v &&& 128 ≠ 0 <;>
    simp [update_nf_flags, h0, h128, testBit_set_bit, testBit_unset_bit,
      hq, Flag.val, Ne.symm h1, Ne.symm h7]

/-- The zero/negative flag policy sets the Z bit exactly when the result
byte is zero.  -/
theorem testBit_update_nf_flags_z (s : Status) (v : Nat) :
    (update_nf_flags s v).register.testBit 1 = decide (v = 0) := by
  by_cases h0 : v = 0 <;> by_cases h128 : v &&& 128 ≠ 0 <;>
    simp [update_nf_flags, h0, h128, testBit_set_bit, testBit_unset_bit,
      Flag.val]

/-- The zero/negative flag policy sets the N bit exactly when bit seven of
the result byte is set.  -/
theorem testBit_update_nf_flags_n (s : Status) (v : Nat) :
    (update_nf_flags s v).register.testBit 7 = decide (v &&& 128 ≠ 0) := by
  by_cases h0 : v = 0 <;> by_cases h128 : v &&& 128 ≠ 0 <;>
    simp [update_nf_flags, h0, h128, testBit_set_bit, testBit_unset_bit,
      Flag.val]

/-- C1: for every result byte v and every prior status-register state,
update_nf_flags leaves Z (bit 1) set iff v = 0, N (bit 7) set iff bit 7 of
v is set, and the C (0), V (6), D (3), I (2) and B (4) bits exactly as
they were before.  -/
theorem update_nf_flags_spec (v : Nat) (s : Status) :
    ((update_nf_flags s v).register.testBit 1 = true ↔ v = 0) ∧
    ((update_nf_flags s v).register.testBit 7 = true ↔ v &&& 128 ≠ 0) ∧
    (update_nf_flags s v).register.testBit 0 = s.register.testBit 0 ∧
    (update_nf_flags s v).register.testBit 6 = s.register.testBit 6 ∧
    (update_nf_flags s v).register.testBit 3 = s.register.testBit 3 ∧
    (update_nf_flags s v).register.testBit 2 = s.register.testBit 2 ∧
    (update_nf_flags s v).register.testBit 4 = s.register.testBit 4 := by
  refine ⟨?_, ?_, ?_, ?_, ?_, ?_, ?_⟩
  · rw [testBit_update_nf_flags_z]; simp
  · rw [testBit_update_nf_flags_n]; simp
  · exact testBit_update_nf_flags_other s v 0 (by decide) (by decide)
      (by decide)
  · exact testBit_update_nf_flags_other s v 6 (by decide) (by decide)
      (by decide)
  · exact testBit_update_nf_flags_other s v 3 (by decide) (by decide)
      (by decide)
  · exact testBit_update_nf_flags_other s v 2 (by decide) (by decide)
      (by decide)
  · exact testBit_update_nf_flags_other s v 4 (by decide) (by decide)
      (by decide)

/-- C4: the flag read operation does not return a 0-or-1 result; it
returns the raw masked bit, contradicting its own documentation.  With the
N bit set the read of N returns 128 rather than 1, and with the Z bit set
the read of Z returns 2 rather than 1.  -/
theorem read_bit_returns_mask_bug :
    Status.n { register := 128 } = 128 ∧
    Status.n { register := 128 } ≠ 1 ∧
    Status.z { register := 2 } = 2 ∧
    Status.z { register := 2 } ≠ 1 := by
  decide

/-- C7: each of set_bit, unset_bit and toggle_bit changes at most the
single bit at the flag's fixed position (N=7, V=6, B=4, D=3, I=2, Z=1,
C=0) and leaves the other byte bit positions unchanged; after set_bit the
flag's bit is one, after unset_bit it is zero.  -/
theorem status_bit_ops_frame (f : Flag) (s : Status) (q : Nat) :
    (q < 8 → q ≠ f.val →
      (s.set_bit f).register.testBit q = s.register.testBit q ∧
      (s.unset_bit f).register.testBit q = s.register.testBit q ∧
      (s.toggle_bit f).register.testBit q = s.register.testBit q) ∧
    (s.set_bit f).register.testBit f.val = true ∧
    (s.unset_bit f).register.testBit f.val = false ∧
    (Flag.val .N = 7 ∧ Flag.val .V = 6 ∧ Flag.val .B = 4 ∧ Flag.val .D = 3 ∧
      Flag.val .I = 2 ∧ Flag.val .Z = 1 ∧ Flag.val .C = 0) := by
  refine ⟨fun hq hne => ?_, ?_, ?_, by decide⟩
  · simp [testBit_set_bit, testBit_unset_bit, testBit_toggle_bit, hq,
      Ne.symm hne]
  · simp [testBit_set_bit]
  · simp [testBit_unset_bit, f.val_lt]

/-- Witness for C7 at flag N, register 255, other position 0.  -/
theorem status_bit_ops_frame_witness :
    ((0 : Nat) < 8) ∧ ((0 : Nat) ≠ Flag.val .N) ∧
    ((Status.set_bit { register := 255 } .N).register.testBit 0
        = (255 : Nat).testBit 0 ∧
      (Status.unset_bit { register := 255 } .N).register.testBit 0
        = (255 : Nat).testBit 0 ∧
      (Status.toggle_bit { register := 255 } .N).register.testBit 0
        = (255 : Nat).testBit 0) :=
  ⟨by decide, by decide,
    (status_bit_ops_frame .N { register := 255 } 0).1 (by decide) (by decide)⟩

/-- C10: toggle_bit is an involution and set_bit and unset_bit are
idempotent, for every flag and every register value.  -/
theorem status_ops_algebra (f : Flag) (s : Status) :
    (s.toggle_bit f).toggle_bit f = s ∧
    (s.set_bit f).set_bit f = s.set_bit f ∧
    (s.unset_bit f).unset_bit f = s.unset_bit f := by
  obtain ⟨r⟩ := s
  refine ⟨?_, ?_, ?_⟩
  · simp [Status.toggle_bit, Nat.xor_assoc]
  · simp [Status.set_bit, Nat.or_assoc]
  · simp [Status.unset_bit, Nat.and_assoc]

/-- C3 (amended): fetching BRK halts the run at once, for any remaining
fuel and regardless of what the rest of the program holds, leaving the
accumulator, index register and every flag unchanged; only the program
counter moves, to one past the BRK byte.  -/
theorem interpret_brk_spec (prog : List Nat) (c : CPU) (fuel : Nat)
    (hf : 0 < fuel) (hop : prog[c.pc]? = some 0) :
    interpret prog c fuel = .halted { c with pc := (c.pc + 1) % 256 } := by
  cases fuel with
  | zero => omega
  | succ n => simp [interpret, runAux, step, hop]

/-- Witness for C3 on the one-byte program holding only BRK.  -/
theorem interpret_brk_spec_witness :
    (0 : Nat) < 1 ∧ ([0] : List Nat)[CPU.new.pc]? = some 0 ∧
    interpret [0] CPU.new 1 = .halted { CPU.new with pc := (CPU.new.pc + 1) % 256 } :=
  ⟨by decide, by decide, interpret_brk_spec [0] CPU.new 1 (by decide) (by decide)⟩

/-- C3 counterexample to the claim as stated: interpreting the program
holding only BRK from a fresh CPU ends with program counter 1, not the
pre-fetch value 0, so the program counter does not keep the value it had
before the BRK was fetched.  -/
theorem interpret_brk_pc_counterexample :
    interpret [0] CPU.new 1
      = .halted { reg_a := 0, reg_x := 0, status := { register := 0 }, pc := 1 } ∧
    (interpret [0] CPU.new 1).cpu.pc ≠ 0 := by
  decide

/-- C2 (amended): fetching a byte that is no implemented opcode stops the
run at once with an unimplementedOpcode failure naming the byte (a panic
in the source, modelled as a structured error), leaving the accumulator,
index register and every flag exactly as the last completed instruction
left them; the program counter ends one past the failing byte, since the
fetch increments it before decoding.  -/
theorem interpret_unimplemented_spec (prog : List Nat) (c : CPU)
    (op fuel : Nat) (hf : 0 < fuel) (hop : prog[c.pc]? = some op)
    (h0 : op ≠ 0x00) (hA9 : op ≠ 0xA9) (hAA : op ≠ 0xAA) (hE8 : op ≠ 0xE8) :
    interpret prog c fuel
      = .failed (.unimplementedOpcode op) { c with pc := (c.pc + 1) % 256 } := by
  cases fuel with
  | zero => omega
  | succ n => simp [interpret, runAux, step, hop, h0, hA9, hAA, hE8]

/-- Witness for C2 on the program 0x05, 0x00 from a fresh CPU.  -/
theorem interpret_unimplemented_spec_witness :
    (0 : Nat) < 1 ∧ ([5, 0] : List Nat)[CPU.new.pc]? = some 5 ∧
    interpret [5, 0] CPU.new 1
      = .failed (.unimplementedOpcode 5) { CPU.new with pc := (CPU.new.pc + 1) % 256 } :=
  ⟨by decide, by decide,
    interpret_unimplemented_spec [5, 0] CPU.new 5 1 (by decide) (by decide)
      (by decide) (by decide) (by decide) (by decide)⟩

/-- C2 counterexample to the claim as stated: interpreting 0x05, 0x00 from
a fresh CPU fails with unimplementedOpcode 5 but ends with program counter
1, one past the failing byte at position 0, so the program counter does
advance past the failing byte.  -/
theorem interpret_unimplemented_pc_counterexample :
    interpret [5, 0] CPU.new 2
      = .failed (.unimplementedOpcode 5)
          { reg_a := 0, reg_x := 0, status := { register := 0 }, pc := 1 } ∧
    (interpret [5, 0] CPU.new 2).cpu.pc ≠ 0 := by
  decide

/-- C5: INX computes index register := (index register + 1) mod 256 and
succeeds on every state; from 0xFF it wraps to 0x00, after which the Z
flag is set and the N flag is clear.  -/
theorem step_inx_spec (prog : List Nat) (c : CPU)
    (hop : prog[c.pc]? = some 0xE8) :
    step prog c = .next { c with
        pc := (c.pc + 1) % 256
        reg_x := (c.reg_x + 1) % 256
        status := update_nf_flags c.status ((c.reg_x + 1) % 256) } ∧
    (c.reg_x = 255 →
      (c.reg_x + 1) % 256 = 0 ∧
      (update_nf_flags c.status ((c.reg_x + 1) % 256)).register.testBit 1 = true ∧
      (update_nf_flags c.status ((c.reg_x + 1) % 256)).register.testBit 7 = false) := by
  constructor
  · simp [step, hop]
  · intro hx
    rw [hx]
    refine ⟨by decide, ?_, ?_⟩
    · rw [show (255 + 1) % 256 = 0 from rfl, testBit_update_nf_flags_z]
      simp
    · rw [show (255 + 1) % 256 = 0 from rfl, testBit_update_nf_flags_n]
      simp

/-- Witness for C5 with index register 0xFF.  -/
theorem step_inx_spec_witness :
    ([0xE8, 0] : List Nat)[({ reg_a := 0, reg_x := 255, status := { register := 0 }, pc := 0 } : CPU).pc]? = some 0xE8 ∧
    (((255 : Nat) + 1) % 256 = 0 ∧
      (update_nf_flags { register := 0 } ((255 + 1) % 256)).register.testBit 1 = true ∧
      (update_nf_flags { register := 0 } ((255 + 1) % 256)).register.testBit 7 = false) :=
  ⟨by decide,
    (step_inx_spec [0xE8, 0]
        { reg_a := 0, reg_x := 255, status := { register := 0 }, pc := 0 }
        (by decide)).2 rfl⟩

/-- C6: TAX copies the accumulator into the index register and updates the
Z and N flags from the copied value: Z set iff it is zero, N set iff its
bit 7 is set, independent of the index register's prior contents.  -/
theorem step_tax_spec (prog : List Nat) (c : CPU)
    (hop : prog[c.pc]? = some 0xAA) :
    step prog c = .next { c with
        pc := (c.pc + 1) % 256
        reg_x := c.reg_a
        status := update_nf_flags c.status c.reg_a } ∧
    ((update_nf_flags c.status c.reg_a).register.testBit 1 = true ↔ c.reg_a = 0) ∧
    ((update_nf_flags c.status c.reg_a).register.testBit 7 = true ↔
      c.reg_a &&& 128 ≠ 0) := by
  refine ⟨by simp [step, hop], ?_, ?_⟩
  · rw [testBit_update_nf_flags_z]; simp
  · rw [testBit_update_nf_flags_n]; simp

/-- Witness for C6 with accumulator 10, mirroring the source test.  -/
theorem step_tax_spec_witness :
    ([0xAA, 0] : List Nat)[({ reg_a := 10, reg_x := 0, status := { register := 0 }, pc := 0 } : CPU).pc]? = some 0xAA ∧
    step [0xAA, 0] { reg_a := 10, reg_x := 0, status := { register := 0 }, pc := 0 }
      = .next { reg_a := 10, reg_x := 10, status := update_nf_flags { register := 0 } 10, pc := 1 } :=
  ⟨by decide,
    (step_tax_spec [0xAA, 0]
        { reg_a := 10, reg_x := 0, status := { register := 0 }, pc := 0 }
        (by decide)).1⟩

/-- C9: each implemented opcode leaves the register it does not target
unchanged: LDA immediate leaves the index register as it was, and TAX and
INX leave the accumulator as it was, whatever state the step ends in.  -/
theorem step_frame_effects (prog : List Nat) (c : CPU) :
    (prog[c.pc]? = some 0xA9 → (step prog c).cpu.reg_x = c.reg_x) ∧
    (prog[c.pc]? = some 0xAA → (step prog c).cpu.reg_a = c.reg_a) ∧
    (prog[c.pc]? = some 0xE8 → (step prog c).cpu.reg_a = c.reg_a) := by
  refine ⟨fun h => ?_, fun h => ?_, fun h => ?_⟩
  · simp only [step, h]
    cases h2 : prog[(c.pc + 1) % 256]? <;> simp [h2, StepResult.cpu]
  · simp [step, h, StepResult.cpu]
  · simp [step, h, StepResult.cpu]

/-- Witness for C9 at one program per opcode.  -/
theorem step_frame_effects_witness :
    (step [0xA9, 7, 0] CPU.new).cpu.reg_x = CPU.new.reg_x ∧
    (step [0xAA, 0] CPU.new).cpu.reg_a = CPU.new.reg_a ∧
    (step [0xE8, 0] CPU.new).cpu.reg_a = CPU.new.reg_a :=
  ⟨(step_frame_effects [0xA9, 7, 0] CPU.new).1 (by decide),
    (step_frame_effects [0xAA, 0] CPU.new).2.1 (by decide),
    (step_frame_effects [0xE8, 0] CPU.new).2.2 (by decide)⟩

/-- One interpreter step never turns on the unused bit 5 of the status
register.  -/
theorem step_preserves_bit5 (prog : List Nat) (c : CPU)
    (h : c.status.register.testBit 5 = false) :
    ((step prog c).cpu).status.register.testBit 5 = false := by
  unfold step
  split
  · simpa [StepResult.cpu]
  · split_ifs with h0 hA9 hAA hE8
    · simpa [StepResult.cpu]
    · dsimp only
      split
      · simpa [StepResult.cpu]
      · simpa [StepResult.cpu, testBit_update_nf_flags_other _ _ 5
          (by decide) (by decide) (by decide)]
    · simpa [StepResult.cpu, testBit_update_nf_flags_other _ _ 5
        (by decide) (by decide) (by decide)]
    · simpa [StepResult.cpu, testBit_update_nf_flags_other _ _ 5
        (by decide) (by decide) (by decide)]
    · simpa [StepResult.cpu]

/-- A bounded run never turns on the unused bit 5 of the status
register.  -/
theorem runAux_preserves_bit5 (fuel : Nat) (prog : List Nat) (c : CPU)
    (h : c.status.register.testBit 5 = false) :
    ((runAux fuel prog c).cpu).status.register.testBit 5 = false := by
  induction fuel generalizing c with
  | zero => simpa [runAux, RunResult.cpu]
  | succ n ih =>
    have hs := step_preserves_bit5 prog c h
    unfold runAux
    cases hstep : step prog c with
    | halted c1 =>
      rw [hstep] at hs
      simpa [RunResult.cpu, StepResult.cpu] using hs
    | next c1 =>
      rw [hstep] at hs
      exact ih c1 (by simpa [StepResult.cpu] using hs)
    | failed e c1 =>
      rw [hstep] at hs
      simpa [RunResult.cpu, StepResult.cpu] using hs

/-- C8: a fresh CPU starts with bit 5 of the status register clear, and
after any number of interpreter steps on any program the bit is still
clear: no implemented operation ever sets the unused bit.  -/
theorem bit5_invariant :
    CPU.new.status.register.testBit 5 = false ∧
    ∀ (prog : List Nat) (fuel : Nat),
      ((interpret prog CPU.new fuel).cpu).status.register.testBit 5 = false :=
  ⟨by decide, fun prog fuel => runAux_preserves_bit5 fuel prog CPU.new (by decide)⟩

end Nes
